import Mathlib

/-!
# Shallow embedding of ExamApp (`src/examapp.py`)

This file embeds the three behavioural parts of `examapp.py`:

* `parse_pdf` — the line-oriented question parser (lines 121-154 of the
  source).  PDF text extraction itself is an external collaborator; the
  embedding starts from the extracted document text.
* `get_questions` — the subject-filtered, shuffled, sliced sample
  (lines 157-173).  The SQLite SELECT is modelled as a list filter over the
  stored rows, and `random.shuffle` by quantifying over an arbitrary
  permutation of the candidate list.
* `evaluate` — the scoring part of the interactive loop (lines 176-198):
  the response string is coerced to an integer (`0` on failure) and compared
  with the stored `correct` field.

Python strings are modelled as `List Char` (sequences of Unicode code
points), so slicing, prefix tests and per-character classification translate
directly.
-/

/-- Code points of a Lean string literal, modelling a Python `str` value. -/
def str (s : String) : List Char := s.data

/-- The whitespace class stripped by Python `str.strip()`: space, tab,
newline, carriage return, vertical tab, form feed.  (Python also strips some
further Unicode space characters; none occur in the inputs considered
here.) -/
def pyIsSpace (c : Char) : Bool :=
  c = ' ' || c = '\t' || c = '\n' || c = '\r' || c.toNat = 11 || c.toNat = 12

/-- Model of Python `str.isdigit()` on one character: true on characters with
Unicode digit numeric type.  The source (line 130) calls `line[0].isdigit()`.
We enumerate the ASCII digits together with the common non-ASCII digit
blocks (Arabic-Indic, extended Arabic-Indic, Devanagari, Bengali, Thai,
fullwidth digits, and the superscript/subscript digits); this is a faithful
under-approximation of the full Unicode table, and both the source-side and
spec-side definitions below use this same predicate. -/
def pyIsDigit (c : Char) : Bool :=
  let n := c.toNat
  (0x30 ≤ n && n ≤ 0x39) ||
  (0x660 ≤ n && n ≤ 0x669) ||
  (0x6F0 ≤ n && n ≤ 0x6F9) ||
  (0x966 ≤ n && n ≤ 0x96F) ||
  (0x9E6 ≤ n && n ≤ 0x9EF) ||
  (0xE50 ≤ n && n ≤ 0xE59) ||
  (0xFF10 ≤ n && n ≤ 0xFF19) ||
  n = 0xB2 || n = 0xB3 || n = 0xB9 ||
  n = 0x2070 || (0x2074 ≤ n && n ≤ 0x2079) ||
  (0x2080 ≤ n && n ≤ 0x2089)

/-- An ASCII decimal digit `0`-`9` (used to state claims that single out
ASCII digits, and by the model of `int()`). -/
def isAsciiDigit (c : Char) : Bool :=
  0x30 ≤ c.toNat && c.toNat ≤ 0x39

/-- Python `str.strip()`: drop leading and trailing whitespace. -/
def pyStrip (l : List Char) : List Char :=
  ((l.dropWhile pyIsSpace).reverse.dropWhile pyIsSpace).reverse

/-- Helper for `splitLines`; `acc` holds the current line reversed. -/
def splitLinesAux : List Char → List Char → List (List Char)
  | [], acc => if acc.isEmpty then [] else [acc.reverse]
  | '\r' :: '\n' :: rest, acc => acc.reverse :: splitLinesAux rest []
  | '\r' :: rest, acc => acc.reverse :: splitLinesAux rest []
  | '\n' :: rest, acc => acc.reverse :: splitLinesAux rest []
  | c :: rest, acc => splitLinesAux rest (c :: acc)

/-- Python `str.splitlines()` for the line boundaries `\n`, `\r`, `\r\n`
(Python recognises a few further rare boundary characters; none occur in the
inputs considered here).  No trailing empty line is produced for text ending
in a newline. -/
def splitLines (l : List Char) : List (List Char) :=
  splitLinesAux l []

/-- Line 130 of the source: `line[0].isdigit() and line[1:3] == ". "`.
The parser only reaches this test on non-blank lines; on the empty line the
Python expression `line[0]` would fail, so the `[]` case is unreachable. -/
def isNewQuestionLine (line : List Char) : Bool :=
  match line with
  | [] => false
  | c :: rest => pyIsDigit c && rest.take 2 == [ '.', ' ' ]

/-- Line 138 of the source: `line.startswith("A)") or ... or
line.startswith("D)")`. -/
def isOptionLine (line : List Char) : Bool :=
  (str "A)").isPrefixOf line || (str "B)").isPrefixOf line ||
    (str "C)").isPrefixOf line || (str "D)").isPrefixOf line

/-- Line 140 of the source: `line.startswith("Answer:")`. -/
def isAnswerLine (line : List Char) : Bool :=
  (str "Answer:").isPrefixOf line

/-- Line 143 of the source: `line.startswith("Explanation:")`. -/
def isExplanationLine (line : List Char) : Bool :=
  (str "Explanation:").isPrefixOf line

/-- Model of `line.split(":", 1)[1]`: everything after the first colon.  In the source
this is only evaluated under a `startswith` guard that guarantees a colon is
present (otherwise Python would raise an IndexError, which this total model
need not represent). -/
def afterFirstColon (l : List Char) : List Char :=
  (l.dropWhile (fun c => c ≠ ':')).drop 1

/-- Python `str.upper()` on one character, for the ASCII range (the parser
compares the result only against the single letters `A`-`D`). -/
def pyUpperChar (c : Char) : Char :=
  if 'a' ≤ c ∧ c ≤ 'z' then Char.ofNat (c.toNat - 32) else c

/-- Python `str.upper()`. -/
def pyUpper (l : List Char) : List Char :=
  l.map pyUpperChar

/-- Line 142 of the source: `{"A": 1, "B": 2, "C": 3, "D": 4}.get(letter, 0)`. -/
def answerTable (s : List Char) : Nat :=
  (([(str "A", 1), (str "B", 2), (str "C", 3), (str "D", 4)]
      : List (List Char × Nat)).lookup s).getD 0

/-- Python truthiness of the `current_q` variable: `None` and the empty
string are falsy, every non-empty string is truthy. -/
def pyTruthy : Option (List Char) → Bool
  | none => false
  | some s => !s.isEmpty

/-- One entry of the parser's `data` list: the tuple
`(current_q, options, correct, explanation)` appended on finalisation. -/
structure ParsedQuestion where
  text : List Char
  options : List (List Char)
  correct : Nat
  explanation : List Char
deriving Repr, DecidableEq

/-- The parser's loop state: the accumulator variables of `parse_pdf`
(`current_q`, `options`, `correct`, `explanation`) plus the `data` output
list.  In the source `correct` is first assigned inside the new-question
branch and only read under a `current_q` guard (which implies it has been
assigned), so initialising it to `0` here is observationally equivalent. -/
structure ParseState where
  current_q : Option (List Char)
  options : List (List Char)
  correct : Nat
  explanation : List Char
  data : List ParsedQuestion
deriving Repr, DecidableEq

/-- The state at loop entry: `current_q = None`, `data = []`, `options = []`,
`explanation = ""`. -/
def initState : ParseState :=
  { current_q := none, options := [], correct := 0, explanation := [], data := [] }

/-- The record appended to `data` when a question is finalised
(lines 133 and 150 of the source). -/
def currentRecord (st : ParseState) : ParsedQuestion :=
  { text := st.current_q.getD [], options := st.options,
    correct := st.correct, explanation := st.explanation }

/-- One iteration of the parser loop body on an already-stripped line
(lines 128-147 of the source, after `line = line.strip()`). -/
def stepCore (st : ParseState) (line : List Char) : ParseState :=
  if line.isEmpty then st
  else if isNewQuestionLine line then
    let data' :=
      if pyTruthy st.current_q && st.options.length == 4 then
        st.data ++ [currentRecord st]
      else st.data
    { current_q := some (line.drop 3), options := [], correct := 0,
      explanation := [], data := data' }
  else if isOptionLine line then
    { st with options := st.options ++ [pyStrip (line.drop 3)] }
  else if isAnswerLine line then
    { st with correct := answerTable (pyUpper (pyStrip (afterFirstColon line))) }
  else if isExplanationLine line then
    { st with explanation := pyStrip (afterFirstColon line) }
  else if pyTruthy st.current_q then
    { st with current_q := some (st.current_q.getD [] ++ ' ' :: line) }
  else st

/-- One iteration of the parser loop on a raw line: line 127 strips it
first. -/
def step (st : ParseState) (rawLine : List Char) : ParseState :=
  stepCore st (pyStrip rawLine)

/-- End-of-input finalisation (lines 149-150 of the source):
`if current_q and len(options) == 4: data.append(...)`. -/
def finalizeData (st : ParseState) : List ParsedQuestion :=
  if pyTruthy st.current_q && st.options.length == 4 then
    st.data ++ [currentRecord st]
  else st.data

/-- The parser's `data` output for a list of raw lines. -/
def parseLines (lines : List (List Char)) : List ParsedQuestion :=
  finalizeData (lines.foldl step initState)

/-- The stored record type: the row `(level, subject, text, option1..4,
correct, explanation)` of the `questions` table / the `Question` dataclass. -/
structure Question where
  level : List Char
  subject : List Char
  text : List Char
  option1 : List Char
  option2 : List Char
  option3 : List Char
  option4 : List Char
  correct : Int
  explanation : List Char
deriving Repr, DecidableEq

/-- Lines 152-153 of the source: each `data` entry becomes a `Question`
with the caller's constant `level` and `subject` and `opts[0]..opts[3]`.
Every emitted entry has exactly four options (the `len(options) == 4`
guards), so the `getD` defaults are never used. -/
def questionsOf (level subject : List Char) (ps : List ParsedQuestion) : List Question :=
  ps.map (fun p =>
    { level := level, subject := subject, text := p.text,
      option1 := p.options.getD 0 [], option2 := p.options.getD 1 [],
      option3 := p.options.getD 2 [], option4 := p.options.getD 3 [],
      correct := (p.correct : Int), explanation := p.explanation })

/-- The function `parse_pdf` from the extracted document text onwards: split into lines,
run the accumulator loop, finalise, and build `Question` records.  (In the
source the records are then inserted with `add_question`; the emitted
sequence is the model's output.) -/
def parse_pdf (docText level subject : List Char) : List Question :=
  questionsOf level subject (parseLines (splitLines docText))

/-- The candidate rows of `get_questions` (lines 160-168): the SELECT with
`WHERE subject=?` runs only when `subject` is truthy (`if subject:`), so
`None` and the empty string both select every row. -/
def subjectFilter (subject : Option (List Char)) (rows : List Question) : List Question :=
  if pyTruthy subject then rows.filter (fun q => q.subject == subject.getD [])
  else rows

/-- Python `l[:num]` (line 172): for `num ≥ 0` the first `num` elements; for
`num < 0` everything except the last `|num|` elements, i.e. the first
`max (length - |num|) 0` elements. -/
def pySliceTake (num : Int) (l : List α) : List α :=
  if 0 ≤ num then l.take num.toNat else l.take (l.length - num.natAbs)

/-- The function `get_questions` modulo randomness: the theorems below quantify over any
`shuffled` list that is a permutation of `subjectFilter subject rows`
(the effect of `random.shuffle(rows)`); the function itself is the
truncation `rows[:num]` of line 172. -/
def get_questions (num : Int) (shuffled : List Question) : List Question :=
  pySliceTake num shuffled

/-- Model of Python `int(s)` on a string: optional surrounding whitespace,
an optional sign, then a non-empty run of ASCII digits; anything else fails
with ValueError (`none`).  (Python additionally accepts underscores between
digits and non-ASCII digits; neither occurs in the claims considered.) -/
def decimalVal? (ds : List Char) : Option Nat :=
  if !ds.isEmpty && ds.all isAsciiDigit then
    some (ds.foldl (fun a c => 10 * a + (c.toNat - 0x30)) 0)
  else none

/-- Python `int(ans)` in the evaluation loop, returning `none` for ValueError. -/
def pyInt? (s : List Char) : Option Int :=
  match pyStrip s with
  | '+' :: ds => (decimalVal? ds).map (fun n => (n : Int))
  | '-' :: ds => (decimalVal? ds).map (fun n => -(n : Int))
  | ds => (decimalVal? ds).map (fun n => (n : Int))

/-- Lines 189-192 of the source: `ans = int(ans)` with
`except ValueError: ans = 0`. -/
def coerceAnswer (s : List Char) : Int :=
  (pyInt? s).getD 0

/-- Line 193 of the source: the response counts as correct exactly when the
coerced integer equals the stored `correct` field. -/
def answeredCorrectly (q : Question) (response : List Char) : Bool :=
  coerceAnswer response == q.correct

/-- The final score of the evaluation loop: one point per question whose
paired response satisfies `ans == q.correct`. -/
def evaluateScore (qs : List Question) (responses : List (List Char)) : Nat :=
  ((qs.zip responses).filter (fun p => answeredCorrectly p.1 p.2)).length

/-! ## Spec-side description of the parser (for the block-structure claim)

The spec describes the parser output block by block: a question block is the
recognised new-question line together with the following lines up to (not
including) the next recognised new-question line, and it contributes one
record exactly when it contains exactly four option lines.  The following
definitions restate the parser in those words; the refinement theorem for C5
proves them equivalent to the loop `parseLines` above. -/

/-- Negation of the new-question test, the guard under which lines stay in
the current block. -/
def notNewQuestion (line : List Char) : Bool :=
  !isNewQuestionLine line

/-- A continuation line: any line that is none of new-question, option,
answer, explanation. -/
def isContinuationLine (line : List Char) : Bool :=
  !(isNewQuestionLine line || isOptionLine line || isAnswerLine line ||
      isExplanationLine line)

/-- Spec-side question text of a block: the header text with each
continuation line appended after a single space, in document order. -/
def blockText (header : List Char) (body : List (List Char)) : List Char :=
  body.foldl (fun t l => if isContinuationLine l then t ++ ' ' :: l else t) header

/-- Spec-side options of a block: one value per option line, in document
order. -/
def blockOptions (acc : List (List Char)) (body : List (List Char)) : List (List Char) :=
  body.foldl (fun os l => if isOptionLine l then os ++ [pyStrip (l.drop 3)] else os) acc

/-- Spec-side `correct` of a block: set by each answer line (the last one
wins), `0` if there is none. -/
def blockCorrect (acc : Nat) (body : List (List Char)) : Nat :=
  body.foldl
    (fun c l =>
      if isAnswerLine l then answerTable (pyUpper (pyStrip (afterFirstColon l))) else c)
    acc

/-- Spec-side explanation of a block: set by each explanation line (the last
one wins), empty if there is none. -/
def blockExplanation (acc : List Char) (body : List (List Char)) : List Char :=
  body.foldl
    (fun e l => if isExplanationLine l then pyStrip (afterFirstColon l) else e)
    acc

/-- The record a block contributes: one record when it has exactly four
option lines, nothing otherwise. -/
def blockRecord (header : List Char) (body : List (List Char)) : Option ParsedQuestion :=
  if (blockOptions [] body).length = 4 then
    some { text := blockText header body, options := blockOptions [] body,
           correct := blockCorrect 0 body, explanation := blockExplanation [] body }
  else none

/-- The generalisation of `Option.toList ∘ blockRecord` to a running
accumulator, used by the refinement proof. -/
def emitBlock (h : List Char) (opts : List (List Char)) (corr : Nat)
    (expl : List Char) (body : List (List Char)) : List ParsedQuestion :=
  if (blockOptions opts body).length = 4 then
    [{ text := blockText h body, options := blockOptions opts body,
       correct := blockCorrect corr body, explanation := blockExplanation expl body }]
  else []

/-- Spec-side parser: split the (normalised) line list into question blocks
and emit each block's record. -/
def specParse : List (List Char) → List ParsedQuestion
  | [] => []
  | l :: ls =>
    if isNewQuestionLine l then
      (blockRecord (l.drop 3) (ls.takeWhile notNewQuestion)).toList
        ++ specParse (ls.dropWhile notNewQuestion)
    else specParse ls
termination_by ls => ls.length
decreasing_by
  · exact Nat.lt_succ_of_le ((List.dropWhile_sublist notNewQuestion).length_le)
  · exact Nat.lt_succ_self _

/-- The line normalisation the loop performs before classifying: each line
is stripped (line 127) and blank lines are skipped (lines 128-129). -/
def normalizeLines (lines : List (List Char)) : List (List Char) :=
  (lines.map pyStrip).filter (fun l => !l.isEmpty)

/-- A concrete stored row, used by the closed instances below. -/
def sampleQ (s : List Char) (c : Int) : Question :=
  { level := str "L", subject := s, text := str "T",
    option1 := str "o1", option2 := str "o2", option3 := str "o3",
    option4 := str "o4", correct := c, explanation := str "ex" }

/-! ## Theorems -/

/-- C4: `parse` applied to the seven-line example document with level
`"easy"` and subject `"math"` yields exactly one record, with text `"Q?"`,
options `a`,`b`,`c`,`d`, correct `2`, explanation `"e"`, and the given level
and subject. -/
theorem parse_pdf_example_doc :
    parse_pdf (str "1. Q?\nA) a\nB) b\nC) c\nD) d\nAnswer: B\nExplanation: e\n")
      (str "easy") (str "math")
      = [{ level := str "easy", subject := str "math", text := str "Q?",
           option1 := str "a", option2 := str "b", option3 := str "c",
           option4 := str "d", correct := 2, explanation := str "e" }] := by
  decide

/-- C1 (code bug): a stored question whose `correct` field is `0` IS scored
as answered correctly by the evaluation loop whenever the response coerces to
`0` — in particular for a malformed response such as `"x"`, which the
`except ValueError` branch turns into `0`.  The score is incremented and the
question does not register as wrong, contradicting the spec's guarantee that
evaluation can never match `correct = 0`. -/
theorem evaluate_zero_correct_scores_correct :
    coerceAnswer (str "x") = 0 ∧
    answeredCorrectly (sampleQ (str "math") 0) (str "x") = true ∧
    evaluateScore [sampleQ (str "math") 0] [str "x"] = 1 := by
  decide

/-- C2 (counterexample): for the option line `"A)x"` — no whitespace after
the 2-character marker — the claim predicts option value `"x"`, but the code
slices `line[3:]`, three characters, so the recorded option value is the
empty string. -/
theorem option_line_three_char_cut_cex :
    parseLines [str "1. Q?", str "A)x", str "B) b", str "C) c", str "D) d"]
      = [{ text := str "Q?", options := [[], str "b", str "c", str "d"],
           correct := 0, explanation := [] }] ∧
    ([] : List Char) ≠ str "x" := by
  decide

/-- C3 (counterexample): the new-question test is Python `isdigit`, which
accepts non-ASCII digit characters.  The line `"٣. Q?"` — first character
U+0663, ARABIC-INDIC DIGIT THREE, not an ASCII digit — IS recognised as
starting a new question, and the parser emits a record for its block. -/
theorem newQuestion_nonascii_digit_cex :
    isNewQuestionLine (str "٣. Q?") = true ∧
    isAsciiDigit '٣' = false ∧
    parseLines [str "٣. Q?", str "A) a", str "B) b", str "C) c", str "D) d"]
      = [{ text := str "Q?", options := [str "a", str "b", str "c", str "d"],
           correct := 0, explanation := [] }] := by
  decide

/-- C3 (amended): a line is recognised as starting a new question iff its
first character is a digit in the sense of Python `str.isdigit` — ASCII or
not — and its second and third characters are `". "`.  Multi-digit numbering
such as `"10. "` is still never recognised: with a digit as second character
the test fails. -/
theorem isNewQuestionLine_iff (c : Char) (cs : List Char) :
    (isNewQuestionLine (c :: cs) = true ↔
      pyIsDigit c = true ∧ cs.take 2 = [ '.', ' ' ]) ∧
    (∀ c2 rest, pyIsDigit c2 = true →
      isNewQuestionLine (c :: c2 :: '.' :: ' ' :: rest) = false) := by
  constructor
  · simp [isNewQuestionLine]
  · intro c2 rest h2
    have hne : c2 ≠ '.' := by
      intro h
      rw [h] at h2
      simp [pyIsDigit] at h2
    simp [isNewQuestionLine, List.take, hne]

/-- Closed instance of `isNewQuestionLine_iff`: the multi-digit line
`"10. What"` is not recognised as a new question. -/
theorem isNewQuestionLine_iff_witness :
    isNewQuestionLine ('1' :: '0' :: '.' :: ' ' :: str "What") = false :=
  (isNewQuestionLine_iff '1' ('0' :: '.' :: ' ' :: str "What")).2 '0' (str "What")
    (by decide)

/-- C9: when `num` is negative, the Python slice `rows[:num]` keeps the first
`max (length + num) 0` rows of the shuffled candidate list — it drops the
last `|num|` rows instead of returning an empty or `num`-bounded sample. -/
theorem get_questions_negative_num (num : Int) (shuffled : List Question)
    (h : num < 0) :
    get_questions num shuffled
      = shuffled.take (((shuffled.length : Int) + num).toNat) := by
  simp only [get_questions, pySliceTake]
  rw [if_neg (by omega)]
  congr 1
  omega

/-- Closed instance of `get_questions_negative_num`: three candidate rows,
`num = -2`: the sample is the first row alone. -/
theorem get_questions_negative_num_witness :
    get_questions (-2) [sampleQ (str "a") 1, sampleQ (str "b") 2, sampleQ (str "c") 3]
      = [sampleQ (str "a") 1] := by
  rw [get_questions_negative_num (-2)
    [sampleQ (str "a") 1, sampleQ (str "b") 2, sampleQ (str "c") 3] (by decide)]
  decide

/-- C10: the empty-string subject is falsy in `if subject:`, so
`get_questions` with `subject=""` selects every stored row — the same
candidate set as `subject=None`, not only the rows whose subject is the
empty string.  (The shuffle and the truncation act on this candidate list,
so sampling and evaluation behave identically in the two cases.) -/
theorem subjectFilter_empty_subject (rows : List Question) :
    subjectFilter (some (str "")) rows = subjectFilter none rows ∧
    subjectFilter none rows = rows := by
  refine ⟨?_, rfl⟩
  simp [subjectFilter, pyTruthy, str]

/-- C7: with `shuffled` any permutation of the candidate rows (the effect of
`random.shuffle`), the sample for a non-negative `count` has at most `count`
rows; every sampled row is a stored row matching the subject filter; no row
is sampled more often than it occurs among the candidates (no duplication);
when at most `count` rows match, the sample is exactly the matching rows (up
to the random order); and `count = 0` gives the empty sample whatever the
store holds. -/
theorem get_questions_sample_spec (subject : Option (List Char))
    (rows shuffled : List Question) (count : Nat)
    (h : shuffled.Perm (subjectFilter subject rows)) :
    (get_questions (count : Int) shuffled).length ≤ count ∧
    (∀ q ∈ get_questions (count : Int) shuffled,
      q ∈ rows ∧ (pyTruthy subject = true → q.subject = subject.getD [])) ∧
    (∀ q, (get_questions (count : Int) shuffled).count q
      ≤ (subjectFilter subject rows).count q) ∧
    ((subjectFilter subject rows).length ≤ count →
      (get_questions (count : Int) shuffled).Perm (subjectFilter subject rows)) ∧
    get_questions ((0 : Nat) : Int) shuffled = [] := by
  have hg : get_questions (count : Int) shuffled = shuffled.take count := by
    simp [get_questions, pySliceTake]
  have hmemsub : ∀ q ∈ subjectFilter subject rows,
      q ∈ rows ∧ (pyTruthy subject = true → q.subject = subject.getD []) := by
    intro q hq
    by_cases ht : pyTruthy subject = true
    · rw [subjectFilter, if_pos ht] at hq
      have hf := List.mem_filter.1 hq
      exact ⟨hf.1, fun _ => by simpa [beq_iff_eq] using hf.2⟩
    · rw [subjectFilter, if_neg ht] at hq
      exact ⟨hq, fun hc => absurd hc ht⟩
  refine ⟨?_, ?_, ?_, ?_, ?_⟩
  · rw [hg]
    exact List.length_take_le count shuffled
  · intro q hq
    rw [hg] at hq
    exact hmemsub q (h.mem_iff.1 (List.mem_of_mem_take hq))
  · intro q
    rw [hg]
    calc (shuffled.take count).count q
        ≤ shuffled.count q := (List.take_sublist count shuffled).count_le q
      _ = (subjectFilter subject rows).count q := h.count_eq q
  · intro hlen
    rw [hg, List.take_of_length_le (by rw [h.length_eq]; exact hlen)]
    exact h
  · simp [get_questions, pySliceTake]

/-- Closed instance of `get_questions_sample_spec`: two stored rows, one of
subject `m`; with `count = 3` the sample is exactly the matching row. -/
theorem get_questions_sample_spec_witness :
    (get_questions ((3 : Nat) : Int) [sampleQ (str "m") 1]).Perm
      (subjectFilter (some (str "m"))
        [sampleQ (str "m") 1, sampleQ (str "p") 2]) :=
  (get_questions_sample_spec (some (str "m"))
      [sampleQ (str "m") 1, sampleQ (str "p") 2] [sampleQ (str "m") 1] 3
      (by decide)).2.2.2.1 (by decide)

/-! ## Line classification

The five line classes of the parser are mutually exclusive; the loop tests
them in a fixed order, and the lemmas below record the exclusions the proofs
need.  Each follows from the first one or two characters the class fixes. -/

lemma option_not_newQuestion {l : List Char} (h : isOptionLine l = true) :
    isNewQuestionLine l = false := by
  simp only [isOptionLine, Bool.or_eq_true, List.isPrefixOf_iff_prefix] at h
  rcases h with ((⟨t, rfl⟩ | ⟨t, rfl⟩) | ⟨t, rfl⟩) | ⟨t, rfl⟩ <;>
    simp [isNewQuestionLine, str, pyIsDigit]

lemma option_not_answer {l : List Char} (h : isOptionLine l = true) :
    isAnswerLine l = false := by
  simp only [isOptionLine, Bool.or_eq_true, List.isPrefixOf_iff_prefix] at h
  rcases h with ((⟨t, rfl⟩ | ⟨t, rfl⟩) | ⟨t, rfl⟩) | ⟨t, rfl⟩ <;>
    simp [isAnswerLine, str, List.isPrefixOf]

lemma option_not_explanation {l : List Char} (h : isOptionLine l = true) :
    isExplanationLine l = false := by
  simp only [isOptionLine, Bool.or_eq_true, List.isPrefixOf_iff_prefix] at h
  rcases h with ((⟨t, rfl⟩ | ⟨t, rfl⟩) | ⟨t, rfl⟩) | ⟨t, rfl⟩ <;>
    simp [isExplanationLine, str, List.isPrefixOf]

lemma answer_not_newQuestion {l : List Char} (h : isAnswerLine l = true) :
    isNewQuestionLine l = false := by
  rw [isAnswerLine, List.isPrefixOf_iff_prefix] at h
  obtain ⟨t, rfl⟩ := h
  simp [isNewQuestionLine, str, pyIsDigit]

lemma answer_not_option {l : List Char} (h : isAnswerLine l = true) :
    isOptionLine l = false := by
  rw [isAnswerLine, List.isPrefixOf_iff_prefix] at h
  obtain ⟨t, rfl⟩ := h
  simp [isOptionLine, str, List.isPrefixOf]

lemma answer_not_explanation {l : List Char} (h : isAnswerLine l = true) :
    isExplanationLine l = false := by
  rw [isAnswerLine, List.isPrefixOf_iff_prefix] at h
  obtain ⟨t, rfl⟩ := h
  simp [isExplanationLine, str, List.isPrefixOf]

lemma explanation_not_newQuestion {l : List Char} (h : isExplanationLine l = true) :
    isNewQuestionLine l = false := by
  rw [isExplanationLine, List.isPrefixOf_iff_prefix] at h
  obtain ⟨t, rfl⟩ := h
  simp [isNewQuestionLine, str, pyIsDigit]

lemma explanation_not_option {l : List Char} (h : isExplanationLine l = true) :
    isOptionLine l = false := by
  rw [isExplanationLine, List.isPrefixOf_iff_prefix] at h
  obtain ⟨t, rfl⟩ := h
  simp [isOptionLine, str, List.isPrefixOf]

lemma explanation_not_answer {l : List Char} (h : isExplanationLine l = true) :
    isAnswerLine l = false := by
  rw [isExplanationLine, List.isPrefixOf_iff_prefix] at h
  obtain ⟨t, rfl⟩ := h
  simp [isAnswerLine, str, List.isPrefixOf]

lemma afterFirstColon_answer (rest : List Char) :
    afterFirstColon (str "Answer:" ++ rest) = rest := by
  have hstr : str "Answer:" = ['A', 'n', 's', 'w', 'e', 'r', ':'] := rfl
  rw [hstr]
  simp [afterFirstColon, List.dropWhile]

/-- C2 (amended): an option line consists of the 2-character marker, then one
further character that is discarded with the marker (the slice is
`line[3:]`), then the option value, which is stripped of surrounding
whitespace before being appended to the options list.  The line reaches the
option branch whatever marker of `A)`, `B)`, `C)`, `D)` it carries. -/
theorem option_line_appends_drop3_strip (st : ParseState) (m rest : List Char)
    (hm : m = str "A)" ∨ m = str "B)" ∨ m = str "C)" ∨ m = str "D)")
    (hs : pyStrip (m ++ rest) = m ++ rest) :
    step st (m ++ rest)
      = { st with options := st.options ++ [pyStrip (rest.drop 1)] } := by
  rcases hm with rfl | rfl | rfl | rfl <;>
  · rw [step, hs]
    simp [stepCore, str, isOptionLine, isNewQuestionLine, pyIsDigit,
      List.isPrefixOf]

/-- Closed instance of `option_line_appends_drop3_strip`: the line `"A)x"`
appends the empty option value. -/
theorem option_line_appends_drop3_strip_witness :
    step initState (str "A)" ++ str "x")
      = { initState with options := [[]] } := by
  rw [option_line_appends_drop3_strip initState (str "A)") (str "x")
    (Or.inl rfl) (by decide)]
  decide

/-- C6: an answer line sets the current `correct` field to the conversion of
the text after the first colon, trimmed and upper-cased, through the table
A→1, B→2, C→3, D→4; the table sends every other string to `0`, with no
error path. -/
theorem answer_line_sets_correct (st : ParseState) (rest : List Char)
    (hs : pyStrip (str "Answer:" ++ rest) = str "Answer:" ++ rest) :
    step st (str "Answer:" ++ rest)
      = { st with correct := answerTable (pyUpper (pyStrip rest)) } ∧
    ∀ s : List Char,
      answerTable s =
        if s = str "A" then 1
        else if s = str "B" then 2
        else if s = str "C" then 3
        else if s = str "D" then 4
        else 0 := by
  have hans : isAnswerLine (str "Answer:" ++ rest) = true := by
    rw [isAnswerLine, List.isPrefixOf_iff_prefix]
    exact List.prefix_append _ _
  constructor
  · have h1 : (str "Answer:" ++ rest).isEmpty = false := by simp [str]
    have h2 := answer_not_newQuestion hans
    have h3 := answer_not_option hans
    rw [step, hs]
    simp [stepCore, h1, h2, h3, hans, afterFirstColon_answer]
  · intro s
    by_cases hA : s = str "A"
    · subst hA; decide
    by_cases hB : s = str "B"
    · subst hB; decide
    by_cases hC : s = str "C"
    · subst hC; decide
    by_cases hD : s = str "D"
    · subst hD; decide
    have eA : (s == str "A") = false := by simp [hA]
    have eB : (s == str "B") = false := by simp [hB]
    have eC : (s == str "C") = false := by simp [hC]
    have eD : (s == str "D") = false := by simp [hD]
    simp [answerTable, List.lookup, eA, eB, eC, eD, hA, hB, hC, hD]

/-- Closed instance of `answer_line_sets_correct`: `"Answer: b"` sets
`correct = 2`; the unrecognised `"Answer: Z"` sets `correct = 0`. -/
theorem answer_line_sets_correct_witness :
    step initState (str "Answer:" ++ str " b") = { initState with correct := 2 } ∧
    step initState (str "Answer:" ++ str " Z") = { initState with correct := 0 } := by
  constructor
  · rw [(answer_line_sets_correct initState (str " b") (by decide)).1]
    decide
  · rw [(answer_line_sets_correct initState (str " Z") (by decide)).1]
    decide

/-- C8: a non-blank line that is none of new-question, option, answer,
explanation is a continuation: with a question open, a single space followed
by the line's (trimmed) content is appended to the accumulated question
text, and nothing else changes; with no question open, the whole state — and
hence the output — is unchanged, the line is discarded. -/
theorem continuation_line_step (st : ParseState) (line : List Char)
    (hs : pyStrip line = line) (hne : line ≠ [])
    (h1 : isNewQuestionLine line = false) (h2 : isOptionLine line = false)
    (h3 : isAnswerLine line = false) (h4 : isExplanationLine line = false) :
    (pyTruthy st.current_q = true →
      step st line
        = { st with current_q := some (st.current_q.getD [] ++ ' ' :: line) }) ∧
    (pyTruthy st.current_q = false → step st line = st) := by
  have hie : line.isEmpty = false := List.isEmpty_eq_false.2 hne
  constructor <;> intro ht <;> rw [step, hs] <;>
    simp [stepCore, hie, h1, h2, h3, h4, ht]

/-- Closed instance of `continuation_line_step`: with the question `"Q"`
open, the continuation line `"more"` extends the text to `"Q more"`; with no
question open the same line leaves the state unchanged. -/
theorem continuation_line_step_witness :
    step { initState with current_q := some (str "Q") } (str "more")
      = { initState with current_q := some (str "Q more") } ∧
    step initState (str "more") = initState := by
  constructor
  · rw [(continuation_line_step { initState with current_q := some (str "Q") }
      (str "more") (by decide) (by decide) (by decide) (by decide) (by decide)
      (by decide)).1 (by decide)]
    decide
  · exact (continuation_line_step initState (str "more") (by decide) (by decide)
      (by decide) (by decide) (by decide) (by decide)).2 (by decide)

/-! ## The block-structure refinement (C5)

`parseLines` is proved equal to `specParse` over the normalised line list:
one record per question block with exactly four option lines, no record for
any other block, finalisation at the next question line and at end of input
alike. -/

lemma stepCore_nil (st : ParseState) : stepCore st [] = st := rfl

lemma stepCore_newQ (st : ParseState) {l : List Char} (hne : l ≠ [])
    (hq : isNewQuestionLine l = true) :
    stepCore st l
      = { current_q := some (l.drop 3), options := [], correct := 0,
          explanation := [],
          data := if pyTruthy st.current_q && st.options.length == 4
                  then st.data ++ [currentRecord st] else st.data } := by
  simp [stepCore, List.isEmpty_eq_false.2 hne, hq]

lemma stepCore_option (st : ParseState) {l : List Char} (hne : l ≠ [])
    (hq : isNewQuestionLine l = false) (ho : isOptionLine l = true) :
    stepCore st l = { st with options := st.options ++ [pyStrip (l.drop 3)] } := by
  simp [stepCore, List.isEmpty_eq_false.2 hne, hq, ho]

lemma stepCore_answer (st : ParseState) {l : List Char} (hne : l ≠ [])
    (hq : isNewQuestionLine l = false) (ho : isOptionLine l = false)
    (ha : isAnswerLine l = true) :
    stepCore st l
      = { st with correct := answerTable (pyUpper (pyStrip (afterFirstColon l))) } := by
  simp [stepCore, List.isEmpty_eq_false.2 hne, hq, ho, ha]

lemma stepCore_explanation (st : ParseState) {l : List Char} (hne : l ≠ [])
    (hq : isNewQuestionLine l = false) (ho : isOptionLine l = false)
    (ha : isAnswerLine l = false) (he : isExplanationLine l = true) :
    stepCore st l = { st with explanation := pyStrip (afterFirstColon l) } := by
  simp [stepCore, List.isEmpty_eq_false.2 hne, hq, ho, ha, he]

lemma stepCore_cont_open (st : ParseState) {l : List Char} (hne : l ≠ [])
    (hq : isNewQuestionLine l = false) (ho : isOptionLine l = false)
    (ha : isAnswerLine l = false) (he : isExplanationLine l = false)
    (ht : pyTruthy st.current_q = true) :
    stepCore st l = { st with current_q := some (st.current_q.getD [] ++ ' ' :: l) } := by
  simp [stepCore, List.isEmpty_eq_false.2 hne, hq, ho, ha, he, ht]

lemma stepCore_cont_closed (st : ParseState) {l : List Char} (hne : l ≠ [])
    (hq : isNewQuestionLine l = false) (ho : isOptionLine l = false)
    (ha : isAnswerLine l = false) (he : isExplanationLine l = false)
    (ht : pyTruthy st.current_q = false) :
    stepCore st l = st := by
  simp [stepCore, List.isEmpty_eq_false.2 hne, hq, ho, ha, he, ht]

lemma dropWhile_head_false {α} (p : α → Bool) :
    ∀ (x : List α) (c : α), (x.dropWhile p).head? = some c → p c = false := by
  intro x
  induction x with
  | nil => intro c h; simp [List.dropWhile] at h
  | cons a t ih =>
    intro c h
    rw [List.dropWhile_cons] at h
    by_cases hp : p a = true
    · rw [if_pos hp] at h
      exact ih c h
    · rw [if_neg hp] at h
      simp only [List.head?_cons, Option.some.injEq] at h
      subst h
      simpa using hp

/-- `pyStrip` output never ends in whitespace. -/
lemma pyStrip_getLast (raw : List Char) (c : Char)
    (h : (pyStrip raw).getLast? = some c) : pyIsSpace c = false := by
  rw [pyStrip, List.getLast?_reverse] at h
  exact dropWhile_head_false pyIsSpace _ c h

/-- A recognised question line that does not end in whitespace carries
non-empty text after its three-character marker (a stripped line can never be
exactly `"1. "`). -/
lemma header_ne_nil {l : List Char} (hq : isNewQuestionLine l = true)
    (hlast : ∀ c, l.getLast? = some c → pyIsSpace c = false) :
    l.drop 3 ≠ [] := by
  cases l with
  | nil => simp [isNewQuestionLine] at hq
  | cons c rest =>
    simp only [isNewQuestionLine, Bool.and_eq_true, beq_iff_eq] at hq
    obtain ⟨-, htake⟩ := hq
    cases rest with
    | nil => simp at htake
    | cons r1 rest1 =>
      cases rest1 with
      | nil => simp [List.take] at htake
      | cons r2 rest2 =>
        simp [List.take] at htake
        obtain ⟨rfl, rfl⟩ := htake
        cases rest2 with
        | nil =>
          have hsp := hlast ' ' (by simp)
          simp [pyIsSpace] at hsp
        | cons d t => simp

lemma foldl_step_eq : ∀ (ls : List (List Char)) (st : ParseState),
    ls.foldl step st = (normalizeLines ls).foldl stepCore st := by
  intro ls
  induction ls with
  | nil => intro st; rfl
  | cons r t ih =>
    intro st
    rw [List.foldl_cons, show step st r = stepCore st (pyStrip r) from rfl, ih]
    cases hre : (pyStrip r).isEmpty with
    | true =>
      have hnil : pyStrip r = [] := List.isEmpty_iff.1 hre
      rw [hnil, stepCore_nil]
      have hnorm : normalizeLines (r :: t) = normalizeLines t := by
        simp [normalizeLines, List.filter_cons, hnil]
      rw [hnorm]
    | false =>
      have hnorm : normalizeLines (r :: t) = pyStrip r :: normalizeLines t := by
        simp [normalizeLines, List.filter_cons, hre]
      rw [hnorm, List.foldl_cons]

lemma specParse_nil : specParse [] = [] := by
  simp [specParse]

lemma specParse_cons_new {l : List Char} {ls : List (List Char)}
    (hq : isNewQuestionLine l = true) :
    specParse (l :: ls)
      = (blockRecord (l.drop 3) (ls.takeWhile notNewQuestion)).toList
        ++ specParse (ls.dropWhile notNewQuestion) := by
  rw [specParse]
  simp [hq]

lemma specParse_cons_old {l : List Char} {ls : List (List Char)}
    (hq : isNewQuestionLine l = false) :
    specParse (l :: ls) = specParse ls := by
  rw [specParse]
  simp [hq]

lemma blockRecord_toList (hd : List Char) (body : List (List Char)) :
    (blockRecord hd body).toList = emitBlock hd [] 0 [] body := by
  rw [blockRecord, emitBlock]
  by_cases hc : (blockOptions [] body).length = 4 <;> simp [hc]

lemma emitBlock_cons (hd : List Char) (opts : List (List Char)) (corr : Nat)
    (expl : List Char) (l : List Char) (body : List (List Char)) :
    emitBlock hd opts corr expl (l :: body)
      = emitBlock
          (if isContinuationLine l = true then hd ++ ' ' :: l else hd)
          (if isOptionLine l = true then opts ++ [pyStrip (l.drop 3)] else opts)
          (if isAnswerLine l = true
            then answerTable (pyUpper (pyStrip (afterFirstColon l))) else corr)
          (if isExplanationLine l = true
            then pyStrip (afterFirstColon l) else expl)
          body := rfl

/-- The open-question invariant: starting from a state with a non-empty open
question, folding the loop over lines finalises that block (exactly-four
rule) and then behaves like the spec-side parser on the remaining blocks. -/
lemma foldCore_open : ∀ ls : List (List Char),
    (∀ l ∈ ls, l ≠ [] ∧ ∀ c, l.getLast? = some c → pyIsSpace c = false) →
    ∀ hd : List Char, hd ≠ [] →
    ∀ (opts : List (List Char)) (corr : Nat) (expl : List Char)
      (data : List ParsedQuestion),
      finalizeData (ls.foldl stepCore
        { current_q := some hd, options := opts, correct := corr,
          explanation := expl, data := data })
      = data ++ emitBlock hd opts corr expl (ls.takeWhile notNewQuestion)
          ++ specParse (ls.dropWhile notNewQuestion) := by
  intro ls
  induction ls with
  | nil =>
    intro _ hd hh opts corr expl data
    have htr : pyTruthy (some hd) = true := by
      simp [pyTruthy, List.isEmpty_eq_false.2 hh]
    simp only [List.foldl_nil, List.takeWhile_nil, List.dropWhile_nil,
      specParse_nil, List.append_nil]
    rw [finalizeData]
    by_cases hlen : opts.length = 4 <;>
      simp [htr, hlen, emitBlock, blockText, blockOptions, blockCorrect,
        blockExplanation, currentRecord]
  | cons l ls ih =>
    intro hP hd hh opts corr expl data
    obtain ⟨hl_ne, hl_last⟩ := hP l (List.mem_cons_self _ _)
    have hP' : ∀ x ∈ ls, x ≠ [] ∧ ∀ c, x.getLast? = some c → pyIsSpace c = false :=
      fun x hx => hP x (List.mem_cons_of_mem _ hx)
    have htr : pyTruthy (some hd) = true := by
      simp [pyTruthy, List.isEmpty_eq_false.2 hh]
    rw [List.foldl_cons]
    by_cases hq : isNewQuestionLine l = true
    · have hnn : ¬notNewQuestion l = true := by simp [notNewQuestion, hq]
      have hdrop : l.drop 3 ≠ [] := header_ne_nil hq hl_last
      rw [List.takeWhile_cons_of_neg hnn, List.dropWhile_cons_of_neg hnn]
      rw [specParse_cons_new hq, blockRecord_toList]
      have hstep : stepCore
          { current_q := some hd, options := opts, correct := corr,
            explanation := expl, data := data } l
        = { current_q := some (l.drop 3), options := [], correct := 0,
            explanation := [],
            data := if opts.length = 4
                    then data ++ [⟨hd, opts, corr, expl⟩] else data } := by
        rw [stepCore_newQ _ hl_ne hq]
        by_cases hlen : opts.length = 4 <;> simp [htr, hlen, currentRecord]
      rw [hstep, ih hP' (l.drop 3) hdrop [] 0 [] _]
      by_cases hlen : opts.length = 4 <;>
        simp [hlen, emitBlock, blockText, blockOptions, blockCorrect,
          blockExplanation, List.append_assoc]
    · have hq' : isNewQuestionLine l = false := by
        cases hql : isNewQuestionLine l
        · rfl
        · exact absurd hql hq
      have hnn : notNewQuestion l = true := by simp [notNewQuestion, hq']
      rw [List.takeWhile_cons_of_pos hnn, List.dropWhile_cons_of_pos hnn,
        emitBlock_cons]
      by_cases ho : isOptionLine l = true
      · have hstep : stepCore
            { current_q := some hd, options := opts, correct := corr,
              explanation := expl, data := data } l
          = { current_q := some hd, options := opts ++ [pyStrip (l.drop 3)],
              correct := corr, explanation := expl, data := data } := by
          rw [stepCore_option _ hl_ne hq' ho]
        rw [hstep, ih hP' hd hh (opts ++ [pyStrip (l.drop 3)]) corr expl data]
        simp [ho, option_not_answer ho, option_not_explanation ho,
          isContinuationLine]
      · have ho' : isOptionLine l = false := by
          cases hol : isOptionLine l
          · rfl
          · exact absurd hol ho
        by_cases ha : isAnswerLine l = true
        · have hstep : stepCore
              { current_q := some hd, options := opts, correct := corr,
                explanation := expl, data := data } l
            = { current_q := some hd, options := opts,
                correct := answerTable (pyUpper (pyStrip (afterFirstColon l))),
                explanation := expl, data := data } := by
            rw [stepCore_answer _ hl_ne hq' ho' ha]
          rw [hstep, ih hP' hd hh opts
            (answerTable (pyUpper (pyStrip (afterFirstColon l)))) expl data]
          simp [ha, ho', answer_not_explanation ha, isContinuationLine]
        · have ha' : isAnswerLine l = false := by
            cases hal : isAnswerLine l
            · rfl
            · exact absurd hal ha
          by_cases he : isExplanationLine l = true
          · have hstep : stepCore
                { current_q := some hd, options := opts, correct := corr,
                  explanation := expl, data := data } l
              = { current_q := some hd, options := opts, correct := corr,
                  explanation := pyStrip (afterFirstColon l), data := data } := by
              rw [stepCore_explanation _ hl_ne hq' ho' ha' he]
            rw [hstep, ih hP' hd hh opts corr (pyStrip (afterFirstColon l)) data]
            simp [he, ho', ha', isContinuationLine]
          · have he' : isExplanationLine l = false := by
              cases hel : isExplanationLine l
              · rfl
              · exact absurd hel he
            have hcont : isContinuationLine l = true := by
              simp [isContinuationLine, hq', ho', ha', he']
            have hh' : hd ++ ' ' :: l ≠ [] := by simp
            have hstep : stepCore
                { current_q := some hd, options := opts, correct := corr,
                  explanation := expl, data := data } l
              = { current_q := some (hd ++ ' ' :: l), options := opts,
                  correct := corr, explanation := expl, data := data } := by
              rw [stepCore_cont_open _ hl_ne hq' ho' ha' he' htr]
              rfl
            rw [hstep, ih hP' (hd ++ ' ' :: l) hh' opts corr expl data]
            simp [hcont, ho', ha', he']

/-- The no-open-question invariant: from a state whose `current_q` is falsy,
folding the loop over lines appends exactly the spec-side records of the
lines' blocks. -/
lemma foldCore_closed : ∀ ls : List (List Char),
    (∀ l ∈ ls, l ≠ [] ∧ ∀ c, l.getLast? = some c → pyIsSpace c = false) →
    ∀ cq : Option (List Char), pyTruthy cq = false →
    ∀ (opts : List (List Char)) (corr : Nat) (expl : List Char)
      (data : List ParsedQuestion),
      finalizeData (ls.foldl stepCore
        { current_q := cq, options := opts, correct := corr,
          explanation := expl, data := data })
      = data ++ specParse ls := by
  intro ls
  induction ls with
  | nil =>
    intro _ cq ht opts corr expl data
    simp [finalizeData, ht, specParse_nil]
  | cons l ls ih =>
    intro hP cq ht opts corr expl data
    obtain ⟨hl_ne, hl_last⟩ := hP l (List.mem_cons_self _ _)
    have hP' : ∀ x ∈ ls, x ≠ [] ∧ ∀ c, x.getLast? = some c → pyIsSpace c = false :=
      fun x hx => hP x (List.mem_cons_of_mem _ hx)
    rw [List.foldl_cons]
    by_cases hq : isNewQuestionLine l = true
    · have hdrop : l.drop 3 ≠ [] := header_ne_nil hq hl_last
      have hstep : stepCore
          { current_q := cq, options := opts, correct := corr,
            explanation := expl, data := data } l
        = { current_q := some (l.drop 3), options := [], correct := 0,
            explanation := [], data := data } := by
        rw [stepCore_newQ _ hl_ne hq]
        simp [ht]
      rw [hstep, foldCore_open ls hP' (l.drop 3) hdrop [] 0 [] data]
      rw [specParse_cons_new hq, blockRecord_toList]
      simp [List.append_assoc]
    · have hq' : isNewQuestionLine l = false := by
        cases hql : isNewQuestionLine l
        · rfl
        · exact absurd hql hq
      rw [specParse_cons_old hq']
      by_cases ho : isOptionLine l = true
      · rw [stepCore_option _ hl_ne hq' ho]
        exact ih hP' cq ht (opts ++ [pyStrip (l.drop 3)]) corr expl data
      · have ho' : isOptionLine l = false := by
          cases hol : isOptionLine l
          · rfl
          · exact absurd hol ho
        by_cases ha : isAnswerLine l = true
        · rw [stepCore_answer _ hl_ne hq' ho' ha]
          exact ih hP' cq ht opts
            (answerTable (pyUpper (pyStrip (afterFirstColon l)))) expl data
        · have ha' : isAnswerLine l = false := by
            cases hal : isAnswerLine l
            · rfl
            · exact absurd hal ha
          by_cases he : isExplanationLine l = true
          · rw [stepCore_explanation _ hl_ne hq' ho' ha' he]
            exact ih hP' cq ht opts corr (pyStrip (afterFirstColon l)) data
          · have he' : isExplanationLine l = false := by
              cases hel : isExplanationLine l
              · rfl
              · exact absurd hel he
            rw [stepCore_cont_closed _ hl_ne hq' ho' ha' he' ht]
            exact ih hP' cq ht opts corr expl data

/-- C5: the parser emits exactly one record per question block with exactly
four option lines and no record for any block with fewer or more option
lines, whether the block is finalised by the next recognised new-question
line or by the end of input: over the normalised line list (stripped,
blanks dropped — exactly what the loop sees), `parseLines` equals the
block-by-block spec-side parser. -/
theorem parseLines_eq_specParse (lines : List (List Char)) :
    parseLines lines = specParse (normalizeLines lines) := by
  rw [parseLines, foldl_step_eq]
  have hP : ∀ l ∈ normalizeLines lines,
      l ≠ [] ∧ ∀ c, l.getLast? = some c → pyIsSpace c = false := by
    intro l hl
    obtain ⟨hmem, hq⟩ := List.mem_filter.1 hl
    obtain ⟨r, -, rfl⟩ := List.mem_map.1 hmem
    refine ⟨?_, fun c hc => pyStrip_getLast r c hc⟩
    intro hnil
    rw [hnil] at hq
    simp at hq
  simpa using foldCore_closed (normalizeLines lines) hP none rfl [] 0 [] []
